import Mathlib

/-!
Shallow embedding of src/src/Tabs.cpp (tab-strip management of the
SumatraPDF main window): creating, closing, selecting and re-titling tabs,
and the per-window tab selection history.

Pointer identity of `WindowTab*` objects is modelled by a numeric `tabId`
allocated from a per-window counter, so two tabs are "the same object"
exactly when their `tabId`s agree.  The surrounding containers
(`TabsCtrl`, `Vec<WindowTab*>`) and the few helpers living outside the
excerpt (`LoadModelIntoTab`, `MainWindow` accessors) are modelled with the
evident list semantics; every such definition carries a doc comment
starting `Modelled from the spec:`.
-/

namespace Tabs

/-- A `WindowTab` object (WindowTab.h is outside the excerpt); only the
fields Tabs.cpp reads are modelled.  `tabId` stands for the object's
address (pointer identity), `ctrl` for the `DocController*` field. -/
structure WindowTab where
  tabId : Nat
  filePath : Option String
  ctrl : Option Nat
deriving Repr, DecidableEq

/-- Modelled from the spec: `WindowTab::GetTabTitle` is outside the
excerpt; the tab strip shows a per-document title, derived here from the
file path (the path itself, or a home title for a path-less tab). -/
def WindowTab.GetTabTitle (t : WindowTab) : String :=
  match t.filePath with
  | some s => s
  | none => "Home"

/-- A `TabInfo` entry of the tab strip control: display text, tooltip,
pinned flag and the `userData` pointer to the owning `WindowTab`. -/
structure TabInfo where
  text : String
  tooltip : Option String
  isPinned : Bool
  userData : WindowTab
deriving Repr, DecidableEq

/-- `gGlobalPrefs` fields read by Tabs.cpp. -/
structure GlobalPrefs where
  useTabs : Bool
deriving Repr, DecidableEq

/-- The per-window state Tabs.cpp manipulates.  `tabs_` is the contents of
`win->tabsCtrl`, `selected` its selected index (`-1` for none),
`tabSelectionHistory` the `Vec<WindowTab*>` history (last element = most
recently pushed), `currentTabTemp` and `ctrl` the `MainWindow` fields of
those names.  `tabsVisible` and `relayoutCount` record the UI effects of
`ShowTabBar`/`RelayoutWindow`; `loadedModel` records which tab's model the
last `LoadModelIntoTab` call loaded; `nextTabId` is the allocator for
pointer identities. -/
structure MainWindow where
  tabs_ : List TabInfo
  selected : Int
  tabSelectionHistory : List WindowTab
  currentTabTemp : Option WindowTab
  ctrl : Option Nat
  tabsVisible : Bool
  tabsInTitlebar : Bool
  relayoutCount : Nat
  loadedModel : Option Nat
  nextTabId : Nat
deriving Repr, DecidableEq

/-- Modelled from the spec: `MainWindow::Tabs()` (outside the excerpt)
collects the `WindowTab*` userData of the tab strip entries, in order. -/
def MainWindow.Tabs (w : MainWindow) : List WindowTab :=
  w.tabs_.map (fun e => e.userData)

/-- Modelled from the spec: `MainWindow::TabsCount()`. -/
def MainWindow.TabsCount (w : MainWindow) : Nat :=
  w.tabs_.length

/-- Modelled from the spec: `MainWindow::CurrentTab()` returns
`currentTabTemp`. -/
def MainWindow.CurrentTab (w : MainWindow) : Option WindowTab :=
  w.currentTabTemp

/-- The pointer identities of the tabs, in strip order. -/
def MainWindow.tabIds (w : MainWindow) : List Nat :=
  w.Tabs.map (fun t => t.tabId)

/-- `Vec::Remove(el)`: remove the first occurrence (pointer comparison,
hence comparison of `tabId`) of a tab from a list. -/
def removeFirstTab : List WindowTab → Nat → List WindowTab
  | [], _ => []
  | x :: xs, id => if x.tabId = id then xs else x :: removeFirstTab xs id

/-- `Vec::Find(el)` (pointer comparison): index of the first tab with the
given identity, `-1` when absent. -/
def vecFindIdx : List WindowTab → Nat → Int
  | [], _ => -1
  | x :: xs, id =>
      if x.tabId = id then 0
      else
        let r := vecFindIdx xs id
        if r < 0 then -1 else r + 1

/-- Modelled from the spec: `TabsCtrl::SetSelected(idx)` selects the entry
at `idx` and returns the previously selected index. -/
def setSelected (w : MainWindow) (idx : Int) : Int × MainWindow :=
  (w.selected, { w with selected := idx })

/-- Modelled from the spec: `TabsCtrl::InsertTab(idx, ti)` inserts an
entry at position `idx` (callers always pass `idx ≤ length`). -/
def insertTabCtrl (w : MainWindow) (idx : Nat) (ti : TabInfo) : MainWindow :=
  { w with tabs_ := w.tabs_.take idx ++ [ti] ++ w.tabs_.drop idx }

/-- Modelled from the spec: `TabsCtrl::RemoveTab<WindowTab*>(idx)` removes
the entry at `idx` and returns its userData; out-of-range indices (which
never occur at the call sites) return `none` and leave the strip alone. -/
def tabsCtrlRemoveTab (w : MainWindow) (idx : Int) : Option WindowTab × MainWindow :=
  if idx < 0 then (none, w)
  else
    match w.tabs_[idx.toNat]? with
    | none => (none, w)
    | some ti => (some ti.userData, { w with tabs_ := w.tabs_.eraseIdx idx.toNat })

/-- Modelled from the spec: `TabsCtrl::SetTextAndTooltip(idx, ...)`
replaces the display text and tooltip of the entry at `idx`. -/
def setTextAndTooltip (w : MainWindow) (idx : Int) (title : String)
    (tooltip : Option String) : MainWindow :=
  if idx < 0 then w
  else
    match w.tabs_[idx.toNat]? with
    | none => w
    | some ti =>
        { w with tabs_ := w.tabs_.set idx.toNat { ti with text := title, tooltip := tooltip } }

/-- Modelled from the spec: `LoadModelIntoTab(tab)` (SumatraPDF.cpp,
outside the excerpt) makes `tab` the window's current tab and installs its
document controller. -/
def LoadModelIntoTab (w : MainWindow) (tab : WindowTab) : MainWindow :=
  { w with currentTabTemp := some tab
         , ctrl := tab.ctrl
         , loadedModel := some tab.tabId }

/-- `ShowTabBar` (Tabs.cpp): no-op when the requested visibility equals
the current one, otherwise flips visibility and relayouts the window. -/
def ShowTabBar (win : MainWindow) (b : Bool) : MainWindow :=
  if b = win.tabsVisible then win
  else { win with tabsVisible := b, relayoutCount := win.relayoutCount + 1 }

/-- `UpdateTabWidth` (Tabs.cpp); only its tab-bar visibility logic is
state, the pixel-width computation is pure UI drawing. -/
def UpdateTabWidth (prefs : GlobalPrefs) (win : MainWindow) : MainWindow :=
  let nTabs := win.TabsCount
  let showSingleTab := prefs.useTabs || win.tabsInTitlebar
  let showTabs := decide (1 < nTabs) || (showSingleTab && decide (0 < nTabs))
  if !showTabs then ShowTabBar win false
  else ShowTabBar win true

/-- `RemoveTab` (Tabs.cpp): remove the strip entry at `idx`, drop the tab
from the selection history, null the current-tab and controller fields if
the removed tab was current, free it, and refresh the tab bar.
(`UpdateTabFileDisplayStateForTab` touches only the saved-preferences
store, outside this state.) -/
def RemoveTab (prefs : GlobalPrefs) (win : MainWindow) (idx : Int) : MainWindow :=
  match tabsCtrlRemoveTab win idx with
  | (none, w) => w
  | (some tab, w) =>
      let w := { w with tabSelectionHistory := removeFirstTab w.tabSelectionHistory tab.tabId }
      let w :=
        if (match w.currentTabTemp with
            | some ct => decide (ct.tabId = tab.tabId)
            | none => false) then
          { w with ctrl := none, currentTabTemp := none }
        else w
      UpdateTabWidth prefs w

/-- `SaveCurrentWindowTab` (Tabs.cpp): when a tab is selected and it is
consistent with `CurrentTab()`, move it to the top of the selection
history.  (The TOC expansion-state save touches only per-tab TOC state,
outside this model; `VerifyWindowTab` is assertion-only.) -/
def SaveCurrentWindowTab (win : MainWindow) : MainWindow :=
  if win.selected < 0 then win
  else
    match win.Tabs[win.selected.toNat]? with
    | none => win
    | some t =>
        match win.CurrentTab with
        | none => win
        | some ct =>
            if ct.tabId = t.tabId then
              { win with tabSelectionHistory :=
                  removeFirstTab win.tabSelectionHistory ct.tabId ++ [ct] }
            else win

/-- `TabsSelect` (Tabs.cpp). -/
def TabsSelect (win : MainWindow) (tabIndex : Int) : MainWindow :=
  let count : Int := win.TabsCount
  if count < 2 || tabIndex < 0 || count ≤ tabIndex then win
  else
    let currIdx := win.selected
    if tabIndex = currIdx then win
    else
      let w := SaveCurrentWindowTab win
      let prevIdx := (setSelected w tabIndex).1
      let w := (setSelected w tabIndex).2
      if prevIdx < 0 then w
      else
        match win.Tabs[tabIndex.toNat]? with
        | none => w
        | some tab => LoadModelIntoTab w tab

/-- `CreateNewTab` (Tabs.cpp) for a non-null window: optionally create the
pinned Home tab first, then insert the document tab, select it and refresh
the tab bar; returns the new `WindowTab`. -/
def CreateNewTab (prefs : GlobalPrefs) (win : MainWindow) (filePath : String) :
    WindowTab × MainWindow :=
  let withHome : Nat × MainWindow :=
    if prefs.useTabs && decide (win.TabsCount = 0) then
      let tab : WindowTab := { tabId := win.nextTabId, filePath := none, ctrl := none }
      let homeTitle : String := "Home"
      let newTab : TabInfo :=
        { text := homeTitle, tooltip := none, isPinned := true, userData := tab }
      (win.TabsCount + 1,
       insertTabCtrl { win with nextTabId := win.nextTabId + 1 } win.TabsCount newTab)
    else (win.TabsCount, win)
  let idx := withHome.1
  let win := withHome.2
  let tab : WindowTab := { tabId := win.nextTabId, filePath := some filePath, ctrl := none }
  let newTab : TabInfo :=
    { text := tab.GetTabTitle, tooltip := some filePath, isPinned := false, userData := tab }
  let win := insertTabCtrl { win with nextTabId := win.nextTabId + 1 } idx newTab
  let win := (setSelected win idx).2
  let win := UpdateTabWidth prefs win
  (tab, win)

/-- `UpdateTabTitle` (Tabs.cpp): refresh text and tooltip of the strip
entry of `tab`. -/
def UpdateTabTitle (win : MainWindow) (tab : Option WindowTab) : MainWindow :=
  match tab with
  | none => win
  | some tab =>
      let idx := vecFindIdx win.Tabs tab.tabId
      setTextAndTooltip win idx tab.GetTabTitle tab.filePath

/-- `TabsOnChangedDoc` (Tabs.cpp): re-title the current tab's strip entry
(the `CrashIf`/`VerifyWindowTab` calls are assertion-only). -/
def TabsOnChangedDoc (win : MainWindow) : MainWindow :=
  match win.CurrentTab with
  | none => win
  | some tab => UpdateTabTitle win (some tab)

/-- `TabsOnCloseDoc` (Tabs.cpp): remove the selected tab; if tabs remain,
select the top of the selection history (popping it) or tab 0 when the
history is empty, and load that tab's model. -/
def TabsOnCloseDoc (prefs : GlobalPrefs) (win : MainWindow) : MainWindow :=
  if win.TabsCount = 0 then win
  else
    let current := win.selected
    let w := RemoveTab prefs win current
    if 0 < w.TabsCount then
      match w.tabSelectionHistory.getLast? with
      | some tab =>
          let w := { w with tabSelectionHistory := w.tabSelectionHistory.dropLast }
          let toSelect := vecFindIdx w.Tabs tab.tabId
          let w := (setSelected w toSelect).2
          LoadModelIntoTab w tab
      | none =>
          match w.Tabs[0]? with
          | some tab =>
              let w := (setSelected w 0).2
              LoadModelIntoTab w tab
          | none => w
    else w

/-- `TabsOnCloseWindow` (Tabs.cpp): delete all tabs, clear the strip and
the selection history, null the current tab and controller.  (Modelled
from the spec: `TabsCtrl::RemoveAllTabs` leaves an empty strip with no
selection.) -/
def TabsOnCloseWindow (win : MainWindow) : MainWindow :=
  { win with tabs_ := []
           , selected := -1
           , tabSelectionHistory := []
           , currentTabTemp := none
           , ctrl := none }

/-- `TabsOnCtrlTab` (Tabs.cpp): select the next (or previous) tab with
wrap-around.  C++ `%` truncates toward zero (`Int.tmod`); the code adds
`count` first so the dividend is non-negative. -/
def TabsOnCtrlTab (win : MainWindow) (reverse : Bool) : MainWindow :=
  let count : Int := win.TabsCount
  if count < 2 then win
  else
    let idx := win.selected + 1
    let idx := if reverse then idx - 2 else idx
    let idx := idx + count
    let idx := Int.tmod idx count
    TabsSelect win idx

/-- The `if (!win) return` guard of `TabsOnCtrlTab`: a null window is
left untouched. -/
def TabsOnCtrlTabOpt (win : Option MainWindow) (reverse : Bool) : Option MainWindow :=
  match win with
  | none => none
  | some w => some (TabsOnCtrlTab w reverse)

/-- Well-formedness the code maintains and asserts (`CrashIf` in
`TabsOnChangedDoc`, the consistency early-return in
`SaveCurrentWindowTab`): tab identities are distinct, the selection
history holds live tabs without duplicates, and the selected index and
`currentTabTemp` agree (both empty exactly when there are no tabs). -/
def WellFormed (w : MainWindow) : Prop :=
  w.tabIds.Nodup ∧
  (w.tabSelectionHistory.map (fun t => t.tabId)).Nodup ∧
  (∀ t ∈ w.tabSelectionHistory, t ∈ w.Tabs) ∧
  (w.tabs_ = [] → w.selected = -1 ∧ w.currentTabTemp = none) ∧
  (w.tabs_ ≠ [] →
    0 ≤ w.selected ∧ w.selected < (w.TabsCount : Int) ∧
    w.currentTabTemp = w.Tabs[w.selected.toNat]?)

instance (w : MainWindow) : Decidable (WellFormed w) := by
  unfold WellFormed
  exact inferInstance

/-- The tab-bar visibility rule of `UpdateTabWidth`: more than one tab, or
a single tab with single-tab display enabled. -/
def showTabsRule (prefs : GlobalPrefs) (w : MainWindow) : Bool :=
  decide (1 < w.TabsCount) || ((prefs.useTabs || w.tabsInTitlebar) && decide (0 < w.TabsCount))

/-! ### Basic lemmas about the modelled containers -/

theorem showTabBar_eq (w : MainWindow) (b : Bool) :
    ShowTabBar w b =
      if b = w.tabsVisible then w
      else { w with tabsVisible := b, relayoutCount := w.relayoutCount + 1 } := rfl

@[simp] theorem showTabBar_tabs (w : MainWindow) (b : Bool) :
    (ShowTabBar w b).tabs_ = w.tabs_ := by
  unfold ShowTabBar; split <;> rfl

@[simp] theorem showTabBar_selected (w : MainWindow) (b : Bool) :
    (ShowTabBar w b).selected = w.selected := by
  unfold ShowTabBar; split <;> rfl

@[simp] theorem showTabBar_history (w : MainWindow) (b : Bool) :
    (ShowTabBar w b).tabSelectionHistory = w.tabSelectionHistory := by
  unfold ShowTabBar; split <;> rfl

@[simp] theorem showTabBar_currentTab (w : MainWindow) (b : Bool) :
    (ShowTabBar w b).currentTabTemp = w.currentTabTemp := by
  unfold ShowTabBar; split <;> rfl

@[simp] theorem showTabBar_ctrl (w : MainWindow) (b : Bool) :
    (ShowTabBar w b).ctrl = w.ctrl := by
  unfold ShowTabBar; split <;> rfl

@[simp] theorem showTabBar_loadedModel (w : MainWindow) (b : Bool) :
    (ShowTabBar w b).loadedModel = w.loadedModel := by
  unfold ShowTabBar; split <;> rfl

@[simp] theorem showTabBar_tabsVisible (w : MainWindow) (b : Bool) :
    (ShowTabBar w b).tabsVisible = b := by
  unfold ShowTabBar; split <;> simp_all

theorem updateTabWidth_eq (prefs : GlobalPrefs) (w : MainWindow) :
    UpdateTabWidth prefs w = ShowTabBar w (showTabsRule prefs w) := by
  unfold UpdateTabWidth showTabsRule
  cases h : decide (1 < w.TabsCount) || ((prefs.useTabs || w.tabsInTitlebar) && decide (0 < w.TabsCount)) <;>
    simp [h]

@[simp] theorem updateTabWidth_tabs (prefs : GlobalPrefs) (w : MainWindow) :
    (UpdateTabWidth prefs w).tabs_ = w.tabs_ := by
  rw [updateTabWidth_eq]; simp

@[simp] theorem updateTabWidth_selected (prefs : GlobalPrefs) (w : MainWindow) :
    (UpdateTabWidth prefs w).selected = w.selected := by
  rw [updateTabWidth_eq]; simp

@[simp] theorem updateTabWidth_history (prefs : GlobalPrefs) (w : MainWindow) :
    (UpdateTabWidth prefs w).tabSelectionHistory = w.tabSelectionHistory := by
  rw [updateTabWidth_eq]; simp

@[simp] theorem updateTabWidth_currentTab (prefs : GlobalPrefs) (w : MainWindow) :
    (UpdateTabWidth prefs w).currentTabTemp = w.currentTabTemp := by
  rw [updateTabWidth_eq]; simp

@[simp] theorem updateTabWidth_ctrl (prefs : GlobalPrefs) (w : MainWindow) :
    (UpdateTabWidth prefs w).ctrl = w.ctrl := by
  rw [updateTabWidth_eq]; simp

@[simp] theorem updateTabWidth_loadedModel (prefs : GlobalPrefs) (w : MainWindow) :
    (UpdateTabWidth prefs w).loadedModel = w.loadedModel := by
  rw [updateTabWidth_eq]; simp

@[simp] theorem updateTabWidth_tabsVisible (prefs : GlobalPrefs) (w : MainWindow) :
    (UpdateTabWidth prefs w).tabsVisible = showTabsRule prefs w := by
  rw [updateTabWidth_eq]; simp

theorem removeFirstTab_sublist (l : List WindowTab) (id : Nat) :
    List.Sublist (removeFirstTab l id) l := by
  induction l with
  | nil => simp [removeFirstTab]
  | cons x xs ih =>
      unfold removeFirstTab
      split
      · exact (List.sublist_cons_self x xs)
      · exact List.Sublist.cons₂ x ih

theorem mem_of_mem_removeFirstTab {l : List WindowTab} {id : Nat} {t : WindowTab}
    (h : t ∈ removeFirstTab l id) : t ∈ l :=
  (removeFirstTab_sublist l id).subset h

theorem not_memId_removeFirstTab {l : List WindowTab} {id : Nat}
    (h : (l.map (fun t => t.tabId)).Nodup) :
    id ∉ (removeFirstTab l id).map (fun t => t.tabId) := by
  induction l with
  | nil => simp [removeFirstTab]
  | cons x xs ih =>
      simp only [List.map_cons, List.nodup_cons] at h
      unfold removeFirstTab
      split
      · rename_i hx
        rw [← hx]
        exact h.1
      · rename_i hx
        simp only [List.map_cons, List.mem_cons]
        intro hc
        rcases hc with hc | hc
        · exact hx hc.symm
        · exact ih h.2 hc

theorem nodupIds_removeFirstTab {l : List WindowTab} {id : Nat}
    (h : (l.map (fun t => t.tabId)).Nodup) :
    ((removeFirstTab l id).map (fun t => t.tabId)).Nodup :=
  ((removeFirstTab_sublist l id).map (fun t => t.tabId)).nodup h

theorem memId_ne_of_removeFirstTab {l : List WindowTab} {id : Nat} {t : WindowTab}
    (h : (l.map (fun t => t.tabId)).Nodup) (ht : t ∈ removeFirstTab l id) :
    t.tabId ≠ id := by
  intro he
  subst he
  exact not_memId_removeFirstTab h (List.mem_map_of_mem (fun t => t.tabId) ht)

theorem vecFindIdx_spec {l : List WindowTab} {t : WindowTab}
    (h : (l.map (fun t => t.tabId)).Nodup) (ht : t ∈ l) :
    0 ≤ vecFindIdx l t.tabId ∧ l[(vecFindIdx l t.tabId).toNat]? = some t := by
  induction l with
  | nil => cases ht
  | cons x xs ih =>
      simp only [List.map_cons, List.nodup_cons] at h
      unfold vecFindIdx
      by_cases hx : x.tabId = t.tabId
      · rw [if_pos hx]
        refine ⟨by omega, ?_⟩
        have : t = x := by
          rcases List.mem_cons.mp ht with he | he
          · exact he
          · have hm : x.tabId ∈ xs.map (fun t => t.tabId) := by
              rw [hx]
              exact List.mem_map_of_mem (fun t => t.tabId) he
            exact absurd hm h.1
        simp [this]
      · have ht' : t ∈ xs := by
          rcases List.mem_cons.mp ht with he | he
          · exact absurd (by rw [he]) hx
          · exact he
        obtain ⟨h0, hget⟩ := ih h.2 ht'
        simp only [if_neg hx]
        have hneg : ¬ vecFindIdx xs t.tabId < 0 := by omega
        simp only [if_neg hneg]
        refine ⟨by omega, ?_⟩
        have : (vecFindIdx xs t.tabId + 1).toNat = (vecFindIdx xs t.tabId).toNat + 1 := by
          omega
        rw [this]
        simpa using hget

theorem vecFindIdx_at {l : List WindowTab} {s : Nat} {t : WindowTab}
    (h : (l.map (fun t => t.tabId)).Nodup) (hs : l[s]? = some t) :
    vecFindIdx l t.tabId = (s : Int) := by
  induction l generalizing s with
  | nil => simp at hs
  | cons x xs ih =>
      simp only [List.map_cons, List.nodup_cons] at h
      cases s with
      | zero =>
          simp only [List.getElem?_cons_zero, Option.some.injEq] at hs
          unfold vecFindIdx
          simp [hs]
      | succ s =>
          simp only [List.getElem?_cons_succ] at hs
          have htm : t ∈ xs := List.getElem?_mem hs
          have hx : ¬ x.tabId = t.tabId := by
            intro he
            exact h.1 (he ▸ List.mem_map_of_mem (fun t => t.tabId) htm)
          unfold vecFindIdx
          simp only [if_neg hx]
          have := ih h.2 hs
          rw [this]
          have : ¬ ((s : Int) < 0) := by omega
          simp only [if_neg this]
          omega

theorem mem_eraseIdx_of_ne_id :
    ∀ (l : List WindowTab) (s : Nat) {t ts : WindowTab},
      l[s]? = some ts → t ∈ l → t.tabId ≠ ts.tabId → t ∈ l.eraseIdx s
  | [], s, t, ts, hs, ht, hne => by cases ht
  | x :: xs, 0, t, ts, hs, ht, hne => by
      simp only [List.getElem?_cons_zero, Option.some.injEq] at hs
      simp only [List.eraseIdx_zero, List.tail_cons]
      rcases List.mem_cons.mp ht with he | he
      · exact absurd (by rw [he, hs]) hne
      · exact he
  | x :: xs, s + 1, t, ts, hs, ht, hne => by
      simp only [List.getElem?_cons_succ] at hs
      simp only [List.eraseIdx_cons_succ, List.mem_cons]
      rcases List.mem_cons.mp ht with he | he
      · exact Or.inl he
      · exact Or.inr (mem_eraseIdx_of_ne_id xs s hs he hne)

theorem map_eraseIdx {α β : Type} (f : α → β) :
    ∀ (l : List α) (i : Nat), (l.eraseIdx i).map f = (l.map f).eraseIdx i
  | [], _ => by simp
  | x :: xs, 0 => by simp
  | x :: xs, i + 1 => by
      simp only [List.eraseIdx_cons_succ, List.map_cons]
      rw [map_eraseIdx f xs i]

@[simp] theorem showTabBar_tabsInTitlebar (w : MainWindow) (b : Bool) :
    (ShowTabBar w b).tabsInTitlebar = w.tabsInTitlebar := by
  unfold ShowTabBar; split <;> rfl

@[simp] theorem updateTabWidth_tabsInTitlebar (prefs : GlobalPrefs) (w : MainWindow) :
    (UpdateTabWidth prefs w).tabsInTitlebar = w.tabsInTitlebar := by
  rw [updateTabWidth_eq]; simp

theorem showTabsRule_congr (prefs : GlobalPrefs) {w w' : MainWindow}
    (h1 : w.tabs_ = w'.tabs_) (h2 : w.tabsInTitlebar = w'.tabsInTitlebar) :
    showTabsRule prefs w = showTabsRule prefs w' := by
  simp [showTabsRule, MainWindow.TabsCount, h1, h2]

theorem updateTabWidth_visRule (prefs : GlobalPrefs) (w : MainWindow) :
    (UpdateTabWidth prefs w).tabsVisible = showTabsRule prefs (UpdateTabWidth prefs w) := by
  rw [updateTabWidth_tabsVisible]
  exact showTabsRule_congr prefs (by simp) (by simp)

/-! ### Characterizations of `RemoveTab` and `TabsOnCloseDoc` -/

theorem removeTab_char (prefs : GlobalPrefs) (win : MainWindow) (idx : Int) (ti : TabInfo)
    (h0 : 0 ≤ idx) (hti : win.tabs_[idx.toNat]? = some ti) :
    RemoveTab prefs win idx =
      UpdateTabWidth prefs
        (if (match win.currentTabTemp with
             | some ct => decide (ct.tabId = ti.userData.tabId)
             | none => false) = true then
           { win with tabs_ := win.tabs_.eraseIdx idx.toNat
                    , tabSelectionHistory :=
                        removeFirstTab win.tabSelectionHistory ti.userData.tabId
                    , ctrl := none, currentTabTemp := none }
         else
           { win with tabs_ := win.tabs_.eraseIdx idx.toNat
                    , tabSelectionHistory :=
                        removeFirstTab win.tabSelectionHistory ti.userData.tabId }) := by
  have hnn : ¬ idx < 0 := by omega
  unfold RemoveTab tabsCtrlRemoveTab
  rw [if_neg hnn, hti]

/-- The window state right after `RemoveTab(win, win->tabsCtrl->GetSelected())`
inside `TabsOnCloseDoc`, for a well-formed window (the removed tab is the
current one, so both pointer fields are nulled). -/
def removedState (prefs : GlobalPrefs) (win : MainWindow) (ti : TabInfo) : MainWindow :=
  UpdateTabWidth prefs
    { win with tabs_ := win.tabs_.eraseIdx win.selected.toNat
             , tabSelectionHistory :=
                 removeFirstTab win.tabSelectionHistory ti.userData.tabId
             , ctrl := none, currentTabTemp := none }

theorem removeTab_selected_wf (prefs : GlobalPrefs) (win : MainWindow)
    (hwf : WellFormed win) (hne : win.tabs_ ≠ []) :
    ∃ ti, win.tabs_[win.selected.toNat]? = some ti ∧
      win.currentTabTemp = some ti.userData ∧
      RemoveTab prefs win win.selected = removedState prefs win ti := by
  unfold removedState
  obtain ⟨hsel0, hselLt, hcur⟩ := hwf.2.2.2.2 hne
  have hlt : win.selected.toNat < win.tabs_.length := by
    simp only [MainWindow.TabsCount] at hselLt
    omega
  refine ⟨win.tabs_[win.selected.toNat], List.getElem?_eq_getElem hlt, ?_, ?_⟩
  · rw [hcur]
    simp [MainWindow.Tabs, List.getElem?_eq_getElem hlt]
  · rw [removeTab_char prefs win win.selected _ hsel0 (List.getElem?_eq_getElem hlt)]
    have hcv : win.currentTabTemp = some win.tabs_[win.selected.toNat].userData := by
      rw [hcur]
      simp [MainWindow.Tabs, List.getElem?_eq_getElem hlt]
    rw [if_pos (by rw [hcv]; simp)]

@[simp] theorem loadModel_tabs (w : MainWindow) (t : WindowTab) :
    (LoadModelIntoTab w t).tabs_ = w.tabs_ := rfl

@[simp] theorem loadModel_selected (w : MainWindow) (t : WindowTab) :
    (LoadModelIntoTab w t).selected = w.selected := rfl

@[simp] theorem loadModel_history (w : MainWindow) (t : WindowTab) :
    (LoadModelIntoTab w t).tabSelectionHistory = w.tabSelectionHistory := rfl

@[simp] theorem loadModel_currentTab (w : MainWindow) (t : WindowTab) :
    (LoadModelIntoTab w t).currentTabTemp = some t := rfl

@[simp] theorem loadModel_ctrl (w : MainWindow) (t : WindowTab) :
    (LoadModelIntoTab w t).ctrl = t.ctrl := rfl

@[simp] theorem loadModel_loadedModel (w : MainWindow) (t : WindowTab) :
    (LoadModelIntoTab w t).loadedModel = some t.tabId := rfl

@[simp] theorem loadModel_tabsVisible (w : MainWindow) (t : WindowTab) :
    (LoadModelIntoTab w t).tabsVisible = w.tabsVisible := rfl

@[simp] theorem loadModel_tabsInTitlebar (w : MainWindow) (t : WindowTab) :
    (LoadModelIntoTab w t).tabsInTitlebar = w.tabsInTitlebar := rfl

theorem tabsOnCloseDoc_char (prefs : GlobalPrefs) (win : MainWindow)
    (hwf : WellFormed win) (hne : win.tabs_ ≠ []) :
    ∃ ti, win.tabs_[win.selected.toNat]? = some ti ∧
      ((removedState prefs win ti).tabs_ = [] →
          TabsOnCloseDoc prefs win = removedState prefs win ti) ∧
      ((removedState prefs win ti).tabs_ ≠ [] →
        (∀ t, (removedState prefs win ti).tabSelectionHistory.getLast? = some t →
            TabsOnCloseDoc prefs win =
              LoadModelIntoTab
                { removedState prefs win ti with
                    tabSelectionHistory :=
                      (removedState prefs win ti).tabSelectionHistory.dropLast
                  , selected := vecFindIdx (removedState prefs win ti).Tabs t.tabId } t) ∧
        ((removedState prefs win ti).tabSelectionHistory.getLast? = none →
          ∀ t0, (removedState prefs win ti).Tabs[0]? = some t0 →
            TabsOnCloseDoc prefs win =
              LoadModelIntoTab { removedState prefs win ti with selected := 0 } t0)) := by
  obtain ⟨ti, hti, hcur, hrm⟩ := removeTab_selected_wf prefs win hwf hne
  have hc0 : ¬ win.TabsCount = 0 := by
    simp only [MainWindow.TabsCount, List.length_eq_zero]
    exact hne
  refine ⟨ti, hti, ?_, ?_⟩
  · intro hempty
    unfold TabsOnCloseDoc
    rw [if_neg hc0]
    simp only [hrm]
    rw [if_neg (by simp [MainWindow.TabsCount, hempty])]
  · intro hnonempty
    have hpos : 0 < (removedState prefs win ti).TabsCount := by
      simp only [MainWindow.TabsCount]
      cases h : (removedState prefs win ti).tabs_ with
      | nil => exact absurd h hnonempty
      | cons a l => simp [h]
    constructor
    · intro t hlast
      unfold TabsOnCloseDoc
      rw [if_neg hc0]
      simp only [hrm]
      rw [if_pos hpos, hlast]
      simp [setSelected, MainWindow.Tabs]
    · intro hlast t0 ht0
      unfold TabsOnCloseDoc
      rw [if_neg hc0]
      simp only [hrm]
      rw [if_pos hpos, hlast]
      simp only []
      rw [ht0]
      simp [setSelected]

/-! ### Concrete sample windows used by the witness theorems -/

def prefs0 : GlobalPrefs := { useTabs := true }

def tabA : WindowTab := { tabId := 0, filePath := none, ctrl := some 10 }

def tabB : WindowTab := { tabId := 1, filePath := none, ctrl := some 11 }

def entryA : TabInfo := { text := "A", tooltip := none, isPinned := false, userData := tabA }

def entryB : TabInfo := { text := "B", tooltip := none, isPinned := false, userData := tabB }

/-- A well-formed window with two tabs, tab 1 selected and current, and
tab 0 on the selection history. -/
def win2 : MainWindow :=
  { tabs_ := [entryA, entryB]
  , selected := 1
  , tabSelectionHistory := [tabA]
  , currentTabTemp := some tabB
  , ctrl := some 11
  , tabsVisible := true
  , tabsInTitlebar := false
  , relayoutCount := 0
  , loadedModel := some 1
  , nextTabId := 2 }

def fpX : String := "x"

/-! ### The claims -/

/-- C10: after `TabsOnCloseWindow(win)`, the window's tab list is empty,
the tab selection history is empty, and the current-tab pointer and
document controller pointer are both null, for every window regardless of
how many tabs it had. -/
theorem tabsOnCloseWindow_resets (win : MainWindow) :
    (TabsOnCloseWindow win).tabs_ = [] ∧
    (TabsOnCloseWindow win).tabSelectionHistory = [] ∧
    (TabsOnCloseWindow win).currentTabTemp = none ∧
    (TabsOnCloseWindow win).ctrl = none :=
  ⟨rfl, rfl, rfl, rfl⟩

/-- C9: after `RemoveTab(win, idx)` on a valid index, if the removed tab
was the window's current tab then both the document controller pointer
and the current-tab pointer are null; if it was not the current tab, both
fields are unchanged. -/
theorem removeTab_current_frame (prefs : GlobalPrefs) (win : MainWindow) (idx : Int)
    (ti : TabInfo) (h0 : 0 ≤ idx) (hti : win.tabs_[idx.toNat]? = some ti) :
    ((win.currentTabTemp.map (fun c => c.tabId) = some ti.userData.tabId) →
        (RemoveTab prefs win idx).ctrl = none ∧
        (RemoveTab prefs win idx).currentTabTemp = none) ∧
    ((win.currentTabTemp.map (fun c => c.tabId) ≠ some ti.userData.tabId) →
        (RemoveTab prefs win idx).ctrl = win.ctrl ∧
        (RemoveTab prefs win idx).currentTabTemp = win.currentTabTemp) := by
  rw [removeTab_char prefs win idx ti h0 hti]
  cases hc : win.currentTabTemp with
  | none =>
      constructor
      · intro h
        simp [hc] at h
      · intro h
        rw [if_neg (by simp [hc])]
        simp
  | some ct =>
      by_cases he : ct.tabId = ti.userData.tabId
      · constructor
        · intro h
          rw [if_pos (by simp [hc, he])]
          simp
        · intro h
          simp [hc, he] at h
      · constructor
        · intro h
          simp [hc] at h
          exact absurd h he
        · intro h
          rw [if_neg (by simp [hc, he])]
          simp

theorem removeTab_current_frame_witness :
    ((win2.currentTabTemp.map (fun c => c.tabId) = some entryB.userData.tabId) →
        (RemoveTab prefs0 win2 1).ctrl = none ∧
        (RemoveTab prefs0 win2 1).currentTabTemp = none) ∧
    ((win2.currentTabTemp.map (fun c => c.tabId) ≠ some entryB.userData.tabId) →
        (RemoveTab prefs0 win2 1).ctrl = win2.ctrl ∧
        (RemoveTab prefs0 win2 1).currentTabTemp = win2.currentTabTemp) :=
  removeTab_current_frame prefs0 win2 1 entryB (by decide) (by decide)

/-- C8: after tab creation or removal (`CreateNewTab`, `RemoveTab`,
`TabsOnCloseDoc`), the tab bar is visible iff the tab count is greater
than 1, or greater than 0 with single-tab display enabled (tabs enabled
in preferences or tabs in the title bar); and `ShowTabBar` with the
current visibility is a complete no-op (no relayout). -/
theorem tabBar_visibility (prefs : GlobalPrefs) (win : MainWindow) (filePath : String)
    (idx : Int) (hwf : WellFormed win) :
    ((CreateNewTab prefs win filePath).2.tabsVisible =
        showTabsRule prefs (CreateNewTab prefs win filePath).2) ∧
    ((0 ≤ idx ∧ ∃ ti, win.tabs_[idx.toNat]? = some ti) →
        (RemoveTab prefs win idx).tabsVisible =
          showTabsRule prefs (RemoveTab prefs win idx)) ∧
    (win.tabs_ ≠ [] →
        (TabsOnCloseDoc prefs win).tabsVisible =
          showTabsRule prefs (TabsOnCloseDoc prefs win)) ∧
    ShowTabBar win win.tabsVisible = win := by
  refine ⟨?_, ?_, ?_, ?_⟩
  · exact updateTabWidth_visRule _ _
  · rintro ⟨h0, ti, hti⟩
    rw [removeTab_char prefs win idx ti h0 hti]
    exact updateTabWidth_visRule _ _
  · intro hne
    obtain ⟨ti, hti, hemp, hfull⟩ := tabsOnCloseDoc_char prefs win hwf hne
    by_cases he : (removedState prefs win ti).tabs_ = []
    · rw [hemp he]
      unfold removedState
      exact updateTabWidth_visRule _ _
    · obtain ⟨hsome, hnone⟩ := hfull he
      cases hlast : (removedState prefs win ti).tabSelectionHistory.getLast? with
      | some t =>
          rw [hsome t hlast]
          have h2 : showTabsRule prefs
              (LoadModelIntoTab
                { removedState prefs win ti with
                    tabSelectionHistory :=
                      (removedState prefs win ti).tabSelectionHistory.dropLast
                  , selected := vecFindIdx (removedState prefs win ti).Tabs t.tabId } t) =
              showTabsRule prefs (removedState prefs win ti) :=
            showTabsRule_congr prefs (by simp) (by simp)
          rw [h2]
          simp only [loadModel_tabsVisible]
          show (removedState prefs win ti).tabsVisible = _
          unfold removedState
          exact updateTabWidth_visRule _ _
      | none =>
          rcases hts : (removedState prefs win ti).tabs_ with _ | ⟨a, l⟩
          · exact absurd hts he
          · have ht0 : (removedState prefs win ti).Tabs[0]? = some a.userData := by
              simp [MainWindow.Tabs, hts]
            rw [hnone hlast a.userData ht0]
            have h2 : showTabsRule prefs
                (LoadModelIntoTab { removedState prefs win ti with selected := 0 } a.userData) =
                showTabsRule prefs (removedState prefs win ti) :=
              showTabsRule_congr prefs (by simp) (by simp)
            rw [h2]
            simp only [loadModel_tabsVisible]
            show (removedState prefs win ti).tabsVisible = _
            unfold removedState
            exact updateTabWidth_visRule _ _
  · unfold ShowTabBar
    rw [if_pos rfl]

theorem tabBar_visibility_witness :
    ((CreateNewTab prefs0 win2 fpX).2.tabsVisible =
        showTabsRule prefs0 (CreateNewTab prefs0 win2 fpX).2) ∧
    ((0 ≤ (1 : Int) ∧ ∃ ti, win2.tabs_[(1 : Int).toNat]? = some ti) →
        (RemoveTab prefs0 win2 1).tabsVisible =
          showTabsRule prefs0 (RemoveTab prefs0 win2 1)) ∧
    (win2.tabs_ ≠ [] →
        (TabsOnCloseDoc prefs0 win2).tabsVisible =
          showTabsRule prefs0 (TabsOnCloseDoc prefs0 win2)) ∧
    ShowTabBar win2 win2.tabsVisible = win2 :=
  tabBar_visibility prefs0 win2 fpX 1 (by decide)

/-- C1: closing the current document with `TabsOnCloseDoc` removes the
currently selected tab; if at least one tab remains, the tab that becomes
selected is the one popped from the top of the selection history when the
history (after dropping the closed tab) is non-empty, and the tab at
index 0 when the history is empty, and that tab's model is loaded; if the
window had zero tabs the call changes nothing. -/
theorem tabsOnCloseDoc_selects_from_history (prefs : GlobalPrefs) (win : MainWindow)
    (hwf : WellFormed win) :
    (win.TabsCount = 0 → TabsOnCloseDoc prefs win = win) ∧
    (win.tabs_ ≠ [] →
      ∃ ti, win.tabs_[win.selected.toNat]? = some ti ∧
        (TabsOnCloseDoc prefs win).tabs_ = win.tabs_.eraseIdx win.selected.toNat ∧
        (1 < win.TabsCount →
          (∀ t, (removeFirstTab win.tabSelectionHistory ti.userData.tabId).getLast? = some t →
              0 ≤ (TabsOnCloseDoc prefs win).selected ∧
              (TabsOnCloseDoc prefs win).Tabs[(TabsOnCloseDoc prefs win).selected.toNat]? =
                some t ∧
              (TabsOnCloseDoc prefs win).loadedModel = some t.tabId ∧
              (TabsOnCloseDoc prefs win).tabSelectionHistory =
                (removeFirstTab win.tabSelectionHistory ti.userData.tabId).dropLast) ∧
          (removeFirstTab win.tabSelectionHistory ti.userData.tabId = [] →
            ∃ t0, (TabsOnCloseDoc prefs win).Tabs[0]? = some t0 ∧
              (TabsOnCloseDoc prefs win).selected = 0 ∧
              (TabsOnCloseDoc prefs win).loadedModel = some t0.tabId))) := by
  constructor
  · intro h
    unfold TabsOnCloseDoc
    rw [if_pos h]
  · intro hne
    obtain ⟨ti, hti, hemp, hfull⟩ := tabsOnCloseDoc_char prefs win hwf hne
    obtain ⟨hs0, hsl, hcur⟩ := hwf.2.2.2.2 hne
    have hsnat : win.selected.toNat < win.tabs_.length := by
      simp only [MainWindow.TabsCount] at hsl
      omega
    have hrst : (removedState prefs win ti).tabs_ =
        win.tabs_.eraseIdx win.selected.toNat := by
      unfold removedState
      simp
    have hrsh : (removedState prefs win ti).tabSelectionHistory =
        removeFirstTab win.tabSelectionHistory ti.userData.tabId := by
      unfold removedState
      simp
    have hrsT : (removedState prefs win ti).Tabs =
        win.Tabs.eraseIdx win.selected.toNat := by
      simp only [MainWindow.Tabs, hrst]
      exact map_eraseIdx (fun e => e.userData) win.tabs_ win.selected.toNat
    have hwTs : win.Tabs[win.selected.toNat]? = some ti.userData := by
      simp [MainWindow.Tabs, hti]
    refine ⟨ti, hti, ?_, ?_⟩
    · by_cases he : (removedState prefs win ti).tabs_ = []
      · rw [hemp he]
        rw [hrst]
      · obtain ⟨hsome, hnone⟩ := hfull he
        cases hlast : (removedState prefs win ti).tabSelectionHistory.getLast? with
        | some t =>
            rw [hsome t hlast]
            simp only [loadModel_tabs]
            rw [← hrst]
        | none =>
            rcases hts : (removedState prefs win ti).tabs_ with _ | ⟨a, l⟩
            · exact absurd hts he
            · have ht0 : (removedState prefs win ti).Tabs[0]? = some a.userData := by
                simp [MainWindow.Tabs, hts]
              rw [hnone hlast a.userData ht0]
              simp only [loadModel_tabs]
              rw [← hrst]
    · intro hgt1
      have he : (removedState prefs win ti).tabs_ ≠ [] := by
        rw [hrst]
        have hle : (win.tabs_.eraseIdx win.selected.toNat).length = win.tabs_.length - 1 :=
          List.length_eraseIdx_of_lt hsnat
        intro hE
        rw [hE] at hle
        simp only [MainWindow.TabsCount] at hgt1
        simp at hle
        omega
      obtain ⟨hsome, hnone⟩ := hfull he
      have hNT : (win.Tabs.map (fun t => t.tabId)).Nodup := by
        have := hwf.1
        simpa [MainWindow.tabIds] using this
      have hNodupE : ((win.Tabs.eraseIdx win.selected.toNat).map (fun t => t.tabId)).Nodup :=
        ((List.eraseIdx_sublist win.Tabs win.selected.toNat).map (fun t => t.tabId)).nodup hNT
      constructor
      · intro t hlast'
        have hlast : (removedState prefs win ti).tabSelectionHistory.getLast? = some t := by
          rw [hrsh]
          exact hlast'
        rw [hsome t hlast]
        have htmem0 : t ∈ removeFirstTab win.tabSelectionHistory ti.userData.tabId :=
          List.mem_of_getLast?_eq_some hlast'
        have htmem1 : t ∈ win.tabSelectionHistory := mem_of_mem_removeFirstTab htmem0
        have htTabs : t ∈ win.Tabs := hwf.2.2.1 t htmem1
        have htne : t.tabId ≠ ti.userData.tabId :=
          memId_ne_of_removeFirstTab hwf.2.1 htmem0
        have htE : t ∈ win.Tabs.eraseIdx win.selected.toNat :=
          mem_eraseIdx_of_ne_id win.Tabs win.selected.toNat hwTs htTabs htne
        obtain ⟨hge, hfind⟩ := vecFindIdx_spec hNodupE htE
        rw [hrsT]
        refine ⟨by simpa using hge, ?_, by simp, by simp [hrsh]⟩
        simp only [loadModel_selected, loadModel_tabs, MainWindow.Tabs]
        simp only [MainWindow.Tabs] at hrsT
        simp [hrst, hrsT, map_eraseIdx]
        exact hfind
      · intro hE
        have hlast : (removedState prefs win ti).tabSelectionHistory.getLast? = none := by
          rw [hrsh, hE]
          rfl
        rcases hts : (removedState prefs win ti).tabs_ with _ | ⟨a, l⟩
        · exact absurd hts he
        · have ht0 : (removedState prefs win ti).Tabs[0]? = some a.userData := by
            simp [MainWindow.Tabs, hts]
          rw [hnone hlast a.userData ht0]
          refine ⟨a.userData, ?_, by simp, by simp⟩
          simp [MainWindow.Tabs, hts]

theorem saveCurrent_wf (win : MainWindow) (hwf : WellFormed win) (hne : win.tabs_ ≠ []) :
    ∃ ct, win.currentTabTemp = some ct ∧
      SaveCurrentWindowTab win =
        { win with tabSelectionHistory :=
            removeFirstTab win.tabSelectionHistory ct.tabId ++ [ct] } := by
  obtain ⟨hs0, hsl, hcur⟩ := hwf.2.2.2.2 hne
  have hsnat : win.selected.toNat < win.tabs_.length := by
    simp only [MainWindow.TabsCount] at hsl
    omega
  have hTl : win.selected.toNat < win.Tabs.length := by
    simpa [MainWindow.Tabs] using hsnat
  have hwTs : win.Tabs[win.selected.toNat]? = some (win.Tabs.get ⟨win.selected.toNat, hTl⟩) :=
    List.getElem?_eq_getElem hTl
  have hcv : win.currentTabTemp = some (win.Tabs.get ⟨win.selected.toNat, hTl⟩) := by
    rw [hcur]
    exact hwTs
  refine ⟨win.Tabs.get ⟨win.selected.toNat, hTl⟩, hcv, ?_⟩
  unfold SaveCurrentWindowTab
  rw [if_neg (by omega : ¬ win.selected < 0), hwTs]
  simp [MainWindow.CurrentTab, hcv]

theorem tabsSelect_char (win : MainWindow) (i : Int) (hwf : WellFormed win)
    (h2 : 2 ≤ win.TabsCount) (h0 : 0 ≤ i) (hlt : i < (win.TabsCount : Int))
    (hnei : i ≠ win.selected) :
    ∃ ct t, win.currentTabTemp = some ct ∧ win.Tabs[i.toNat]? = some t ∧
      TabsSelect win i =
        LoadModelIntoTab
          { win with
              tabSelectionHistory := removeFirstTab win.tabSelectionHistory ct.tabId ++ [ct]
            , selected := i } t := by
  have hne : win.tabs_ ≠ [] := by
    intro h
    simp [MainWindow.TabsCount, h] at h2
  obtain ⟨ct, hcv, hsave⟩ := saveCurrent_wf win hwf hne
  obtain ⟨hs0, hsl, hcur⟩ := hwf.2.2.2.2 hne
  have hit : i.toNat < win.Tabs.length := by
    simp only [MainWindow.Tabs, List.length_map, MainWindow.TabsCount] at *
    omega
  have hTi : win.Tabs[i.toNat]? = some (win.Tabs.get ⟨i.toNat, hit⟩) :=
    List.getElem?_eq_getElem hit
  refine ⟨ct, win.Tabs.get ⟨i.toNat, hit⟩, hcv, hTi, ?_⟩
  unfold TabsSelect
  rw [if_neg (by simp only [Bool.or_eq_true, decide_eq_true_eq]; omega)]
  rw [if_neg hnei]
  rw [hsave]
  simp only [setSelected]
  rw [if_neg (by omega : ¬ win.selected < 0)]
  rw [hTi]

/-- C2: `TabsSelect(win, tabIndex)` changes the selected tab to
`tabIndex`, pushes the previously current tab on the selection history
(its saved state), and loads the model of the tab at `tabIndex`, exactly
when the window has at least 2 tabs, `0 <= tabIndex < count`, and
`tabIndex` differs from the currently selected index; in every other case
the window is left unchanged. -/
theorem tabsSelect_spec (win : MainWindow) (tabIndex : Int) (hwf : WellFormed win) :
    ((2 ≤ win.TabsCount ∧ 0 ≤ tabIndex ∧ tabIndex < (win.TabsCount : Int) ∧
        tabIndex ≠ win.selected) →
      ∃ ct t, win.currentTabTemp = some ct ∧ win.Tabs[tabIndex.toNat]? = some t ∧
        (TabsSelect win tabIndex).selected = tabIndex ∧
        (TabsSelect win tabIndex).tabSelectionHistory =
          removeFirstTab win.tabSelectionHistory ct.tabId ++ [ct] ∧
        (TabsSelect win tabIndex).loadedModel = some t.tabId ∧
        (TabsSelect win tabIndex).currentTabTemp = some t) ∧
    (¬(2 ≤ win.TabsCount ∧ 0 ≤ tabIndex ∧ tabIndex < (win.TabsCount : Int) ∧
        tabIndex ≠ win.selected) →
      TabsSelect win tabIndex = win) := by
  constructor
  · rintro ⟨h2, h0, hlt, hnei⟩
    obtain ⟨ct, t, hcv, hTi, heq⟩ := tabsSelect_char win tabIndex hwf h2 h0 hlt hnei
    rw [heq]
    exact ⟨ct, t, hcv, hTi, by simp, by simp, by simp, by simp⟩
  · intro hn
    unfold TabsSelect
    by_cases hg : ((win.TabsCount : Int) < 2 ∨ tabIndex < 0 ∨ (win.TabsCount : Int) ≤ tabIndex)
    · rw [if_pos (by simp only [Bool.or_eq_true, decide_eq_true_eq]; omega)]
    · push_neg at hg
      have hieq : tabIndex = win.selected := by
        by_contra hc
        exact hn ⟨by omega, by omega, by omega, hc⟩
      rw [if_neg (by simp only [Bool.or_eq_true, decide_eq_true_eq]; omega)]
      rw [if_pos hieq]

theorem tabsSelect_spec_witness :
    ((2 ≤ win2.TabsCount ∧ 0 ≤ (0 : Int) ∧ (0 : Int) < (win2.TabsCount : Int) ∧
        (0 : Int) ≠ win2.selected) →
      ∃ ct t, win2.currentTabTemp = some ct ∧ win2.Tabs[(0 : Int).toNat]? = some t ∧
        (TabsSelect win2 0).selected = 0 ∧
        (TabsSelect win2 0).tabSelectionHistory =
          removeFirstTab win2.tabSelectionHistory ct.tabId ++ [ct] ∧
        (TabsSelect win2 0).loadedModel = some t.tabId ∧
        (TabsSelect win2 0).currentTabTemp = some t) ∧
    (¬(2 ≤ win2.TabsCount ∧ 0 ≤ (0 : Int) ∧ (0 : Int) < (win2.TabsCount : Int) ∧
        (0 : Int) ≠ win2.selected) →
      TabsSelect win2 0 = win2) :=
  tabsSelect_spec win2 0 (by decide)

/-- C5: with at least two tabs and current index `c`,
`TabsOnCtrlTab(win, false)` selects index `(c + 1) mod count` and
`TabsOnCtrlTab(win, true)` selects index `(c - 1 + count) mod count`
(forward wraps from the last tab to 0, reverse wraps from 0 to the last
tab); a null window or fewer than 2 tabs is left unchanged. -/
theorem tabsOnCtrlTab_wraps (win : MainWindow) (reverse : Bool) (hwf : WellFormed win) :
    (win.TabsCount < 2 → TabsOnCtrlTab win reverse = win) ∧
    (2 ≤ win.TabsCount →
      (TabsOnCtrlTab win false).selected =
        (win.selected + 1) % (win.TabsCount : Int) ∧
      (TabsOnCtrlTab win true).selected =
        (win.selected - 1 + win.TabsCount) % (win.TabsCount : Int)) ∧
    TabsOnCtrlTabOpt none reverse = none := by
  refine ⟨?_, ?_, rfl⟩
  · intro hlt2
    unfold TabsOnCtrlTab
    rw [if_pos (by exact_mod_cast hlt2)]
  · intro h2
    have hne : win.tabs_ ≠ [] := by
      intro h
      simp [MainWindow.TabsCount, h] at h2
    obtain ⟨hs0, hsl, hcur⟩ := hwf.2.2.2.2 hne
    have hn2 : (2 : Int) ≤ (win.TabsCount : Int) := by exact_mod_cast h2
    constructor
    · have hred : TabsOnCtrlTab win false =
          TabsSelect win
            (Int.tmod (win.selected + 1 + (win.TabsCount : Int)) (win.TabsCount : Int)) := by
        unfold TabsOnCtrlTab
        rw [if_neg (by omega)]
        rfl
      have hidx : Int.tmod (win.selected + 1 + (win.TabsCount : Int)) (win.TabsCount : Int) =
          (win.selected + 1) % (win.TabsCount : Int) := by
        rw [Int.tmod_eq_emod (by omega) (by omega)]
        have h := Int.add_mul_emod_self_left (win.selected + 1) ((win.TabsCount : Int)) 1
        simp only [mul_one] at h
        exact h
      rw [hred, hidx]
      have hv0 : 0 ≤ (win.selected + 1) % (win.TabsCount : Int) :=
        Int.emod_nonneg _ (by omega)
      have hvlt : (win.selected + 1) % (win.TabsCount : Int) < (win.TabsCount : Int) :=
        Int.emod_lt_of_pos _ (by omega)
      have hvne : (win.selected + 1) % (win.TabsCount : Int) ≠ win.selected := by
        by_cases hc : win.selected + 1 = (win.TabsCount : Int)
        · rw [hc, Int.emod_self]
          omega
        · rw [Int.emod_eq_of_lt (by omega) (by omega)]
          omega
      obtain ⟨ct, t, _, _, heq⟩ := tabsSelect_char win _ hwf h2 hv0 hvlt hvne
      rw [heq]
      simp
    · have hred : TabsOnCtrlTab win true =
          TabsSelect win
            (Int.tmod (win.selected + 1 - 2 + (win.TabsCount : Int)) (win.TabsCount : Int)) := by
        unfold TabsOnCtrlTab
        rw [if_neg (by omega)]
        rfl
      have harg : win.selected + 1 - 2 + (win.TabsCount : Int) =
          win.selected - 1 + (win.TabsCount : Int) := by omega
      have hidx : Int.tmod (win.selected + 1 - 2 + (win.TabsCount : Int)) (win.TabsCount : Int) =
          (win.selected - 1 + (win.TabsCount : Int)) % (win.TabsCount : Int) := by
        rw [harg, Int.tmod_eq_emod (by omega) (by omega)]
      rw [hred, hidx]
      have hv0 : 0 ≤ (win.selected - 1 + (win.TabsCount : Int)) % (win.TabsCount : Int) :=
        Int.emod_nonneg _ (by omega)
      have hvlt : (win.selected - 1 + (win.TabsCount : Int)) % (win.TabsCount : Int) <
          (win.TabsCount : Int) := Int.emod_lt_of_pos _ (by omega)
      have hvne : (win.selected - 1 + (win.TabsCount : Int)) % (win.TabsCount : Int) ≠
          win.selected := by
        by_cases hz : win.selected = 0
        · have harg2 : win.selected - 1 + (win.TabsCount : Int) = (win.TabsCount : Int) - 1 := by
            omega
          rw [harg2, Int.emod_eq_of_lt (by omega) (by omega)]
          omega
        · have h := Int.add_mul_emod_self_left (win.selected - 1) ((win.TabsCount : Int)) 1
          simp only [mul_one] at h
          rw [h, Int.emod_eq_of_lt (by omega) (by omega)]
          omega
      obtain ⟨ct, t, _, _, heq⟩ := tabsSelect_char win _ hwf h2 hv0 hvlt hvne
      rw [heq]
      simp

theorem tabsOnCtrlTab_wraps_witness :
    (win2.TabsCount < 2 → TabsOnCtrlTab win2 false = win2) ∧
    (2 ≤ win2.TabsCount →
      (TabsOnCtrlTab win2 false).selected =
        (win2.selected + 1) % (win2.TabsCount : Int) ∧
      (TabsOnCtrlTab win2 true).selected =
        (win2.selected - 1 + win2.TabsCount) % (win2.TabsCount : Int)) ∧
    TabsOnCtrlTabOpt none false = none :=
  tabsOnCtrlTab_wraps win2 false (by decide)

theorem removeTab_invalid (prefs : GlobalPrefs) (win : MainWindow) (idx : Int)
    (h : idx < 0 ∨ win.tabs_[idx.toNat]? = none) : RemoveTab prefs win idx = win := by
  unfold RemoveTab tabsCtrlRemoveTab
  rcases h with h | h
  · rw [if_pos h]
  · by_cases h0 : idx < 0
    · rw [if_pos h0]
    · rw [if_neg h0, h]

/-- C4: the selection history is a duplicate-free stack: after
`SaveCurrentWindowTab` the current tab is its last element and occurs
exactly once; after `RemoveTab` the removed tab occurs zero times, and
after `TabsOnCloseWindow` the history is empty; each of these operations
leaves the history duplicate-free. -/
theorem selectionHistory_unique (prefs : GlobalPrefs) (win : MainWindow) (idx : Int)
    (hwf : WellFormed win) :
    (win.tabs_ ≠ [] →
      ∃ ct, win.currentTabTemp = some ct ∧
        (SaveCurrentWindowTab win).tabSelectionHistory.getLast? = some ct ∧
        ((SaveCurrentWindowTab win).tabSelectionHistory.map (fun t => t.tabId)).count ct.tabId
          = 1) ∧
    ((SaveCurrentWindowTab win).tabSelectionHistory.map (fun t => t.tabId)).Nodup ∧
    (∀ ti, 0 ≤ idx → win.tabs_[idx.toNat]? = some ti →
      ((RemoveTab prefs win idx).tabSelectionHistory.map (fun t => t.tabId)).count
        ti.userData.tabId = 0) ∧
    ((RemoveTab prefs win idx).tabSelectionHistory.map (fun t => t.tabId)).Nodup ∧
    (TabsOnCloseWindow win).tabSelectionHistory = [] := by
  refine ⟨?_, ?_, ?_, ?_, rfl⟩
  · intro hne
    obtain ⟨ct, hcv, hsave⟩ := saveCurrent_wf win hwf hne
    rw [hsave]
    refine ⟨ct, hcv, List.getLast?_concat _, ?_⟩
    have hz : (((removeFirstTab win.tabSelectionHistory ct.tabId).map
        (fun t => t.tabId)).count ct.tabId) = 0 :=
      List.count_eq_zero.mpr (not_memId_removeFirstTab hwf.2.1)
    simp [List.count_append, hz]
  · by_cases hne : win.tabs_ = []
    · have hz : SaveCurrentWindowTab win = win := by
        have hsel := (hwf.2.2.2.1 hne).1
        unfold SaveCurrentWindowTab
        rw [if_pos (by omega)]
      rw [hz]
      exact hwf.2.1
    · obtain ⟨ct, hcv, hsave⟩ := saveCurrent_wf win hwf hne
      rw [hsave]
      have h1 : ((removeFirstTab win.tabSelectionHistory ct.tabId).map
          (fun t => t.tabId)).Nodup := nodupIds_removeFirstTab hwf.2.1
      have h2 : ct.tabId ∉ (removeFirstTab win.tabSelectionHistory ct.tabId).map
          (fun t => t.tabId) := not_memId_removeFirstTab hwf.2.1
      simp [List.nodup_append, h1, h2]
  · intro ti h0 hti
    rw [removeTab_char prefs win idx ti h0 hti]
    simp only [updateTabWidth_history]
    split <;>
      exact List.count_eq_zero.mpr (not_memId_removeFirstTab hwf.2.1)
  · by_cases h0 : idx < 0
    · rw [removeTab_invalid prefs win idx (Or.inl h0)]
      exact hwf.2.1
    · cases hti : win.tabs_[idx.toNat]? with
      | none =>
          rw [removeTab_invalid prefs win idx (Or.inr hti)]
          exact hwf.2.1
      | some ti =>
          rw [removeTab_char prefs win idx ti (by omega) hti]
          simp only [updateTabWidth_history]
          split <;> exact nodupIds_removeFirstTab hwf.2.1

theorem selectionHistory_unique_witness :
    (win2.tabs_ ≠ [] →
      ∃ ct, win2.currentTabTemp = some ct ∧
        (SaveCurrentWindowTab win2).tabSelectionHistory.getLast? = some ct ∧
        ((SaveCurrentWindowTab win2).tabSelectionHistory.map (fun t => t.tabId)).count ct.tabId
          = 1) ∧
    ((SaveCurrentWindowTab win2).tabSelectionHistory.map (fun t => t.tabId)).Nodup ∧
    (∀ ti, 0 ≤ (1 : Int) → win2.tabs_[(1 : Int).toNat]? = some ti →
      ((RemoveTab prefs0 win2 1).tabSelectionHistory.map (fun t => t.tabId)).count
        ti.userData.tabId = 0) ∧
    ((RemoveTab prefs0 win2 1).tabSelectionHistory.map (fun t => t.tabId)).Nodup ∧
    (TabsOnCloseWindow win2).tabSelectionHistory = [] :=
  selectionHistory_unique prefs0 win2 1 (by decide)

/-- C6: `TabsOnChangedDoc` rewrites only the tab-strip entry at the
current tab's index, setting its text to the tab's title and its tooltip
to the tab's file path; every other entry, the selected index and the
selection history are unchanged, and with no current tab the call changes
nothing. -/
theorem tabsOnChangedDoc_frame (win : MainWindow) (hwf : WellFormed win) :
    (win.currentTabTemp = none → TabsOnChangedDoc win = win) ∧
    (∀ ct, win.currentTabTemp = some ct →
      ∃ ti, win.tabs_[win.selected.toNat]? = some ti ∧
        TabsOnChangedDoc win =
          { win with tabs_ := (win.tabs_.set win.selected.toNat
              ({ ti with text := ct.GetTabTitle, tooltip := ct.filePath })) } ∧
        (∀ j : Nat, j ≠ win.selected.toNat →
          (TabsOnChangedDoc win).tabs_[j]? = win.tabs_[j]?) ∧
        (TabsOnChangedDoc win).selected = win.selected ∧
        (TabsOnChangedDoc win).tabSelectionHistory = win.tabSelectionHistory) := by
  constructor
  · intro hc
    unfold TabsOnChangedDoc MainWindow.CurrentTab
    rw [hc]
  · intro ct hc
    have hne : win.tabs_ ≠ [] := by
      intro h
      rw [(hwf.2.2.2.1 h).2] at hc
      cases hc
    obtain ⟨hs0, hsl, hcur⟩ := hwf.2.2.2.2 hne
    have hsnat : win.selected.toNat < win.tabs_.length := by
      simp only [MainWindow.TabsCount] at hsl
      omega
    have hti : win.tabs_[win.selected.toNat]? = some (win.tabs_.get ⟨win.selected.toNat, hsnat⟩) :=
      List.getElem?_eq_getElem hsnat
    have hTs : win.Tabs[win.selected.toNat]? = some ct := by
      rw [← hcur, hc]
    have hNT : (win.Tabs.map (fun t => t.tabId)).Nodup := by
      have h := hwf.1
      simpa [MainWindow.tabIds] using h
    have hfind : vecFindIdx win.Tabs ct.tabId = ((win.selected.toNat : Nat) : Int) :=
      vecFindIdx_at hNT hTs
    have hctv : ct = (win.tabs_.get ⟨win.selected.toNat, hsnat⟩).userData := by
      have h2 : win.Tabs[win.selected.toNat]? =
          some (win.tabs_.get ⟨win.selected.toNat, hsnat⟩).userData := by
        simp [MainWindow.Tabs, hti]
      rw [hTs] at h2
      exact Option.some.inj h2
    have heq : TabsOnChangedDoc win =
        { win with tabs_ := (win.tabs_.set win.selected.toNat
            ({ win.tabs_.get ⟨win.selected.toNat, hsnat⟩ with
                text := ct.GetTabTitle, tooltip := ct.filePath })) } := by
      unfold TabsOnChangedDoc MainWindow.CurrentTab
      rw [hc]
      show setTextAndTooltip win (vecFindIdx win.Tabs ct.tabId) ct.GetTabTitle ct.filePath = _
      rw [hfind]
      unfold setTextAndTooltip
      rw [if_neg (by omega)]
      have htoNat : ((win.selected.toNat : Nat) : Int).toNat = win.selected.toNat := by omega
      rw [htoNat, hti, ← hc]
    refine ⟨win.tabs_.get ⟨win.selected.toNat, hsnat⟩, hti, heq, ?_, by rw [heq], by rw [heq]⟩
    intro j hj
    rw [heq]
    exact List.getElem?_set_ne (by omega)

theorem tabsOnChangedDoc_frame_witness :
    (win2.currentTabTemp = none → TabsOnChangedDoc win2 = win2) ∧
    (∀ ct, win2.currentTabTemp = some ct →
      ∃ ti, win2.tabs_[win2.selected.toNat]? = some ti ∧
        TabsOnChangedDoc win2 =
          { win2 with tabs_ := (win2.tabs_.set win2.selected.toNat
              ({ ti with text := ct.GetTabTitle, tooltip := ct.filePath })) } ∧
        (∀ j : Nat, j ≠ win2.selected.toNat →
          (TabsOnChangedDoc win2).tabs_[j]? = win2.tabs_[j]?) ∧
        (TabsOnChangedDoc win2).selected = win2.selected ∧
        (TabsOnChangedDoc win2).tabSelectionHistory = win2.tabSelectionHistory) :=
  tabsOnChangedDoc_frame win2 (by decide)

theorem insertTabCtrl_append (w : MainWindow) (ti : TabInfo) (n : Nat)
    (h : n = w.tabs_.length) : (insertTabCtrl w n ti).tabs_ = w.tabs_ ++ [ti] := by
  subst h
  unfold insertTabCtrl
  simp

/-- C3: for a (non-null) window, `CreateNewTab(win, filePath)` inserts a
new tab at index equal to the prior tab count, selects it and returns it;
when tabs are enabled in preferences and the window previously had zero
tabs, a pinned Home tab is first inserted at index 0 and the new document
tab ends up at index 1. -/
theorem createNewTab_spec (prefs : GlobalPrefs) (win : MainWindow) (filePath : String) :
    (¬(prefs.useTabs = true ∧ win.TabsCount = 0) →
      (CreateNewTab prefs win filePath).2.Tabs[win.TabsCount]? =
        some (CreateNewTab prefs win filePath).1 ∧
      (CreateNewTab prefs win filePath).2.selected = (win.TabsCount : Int) ∧
      (CreateNewTab prefs win filePath).2.TabsCount = win.TabsCount + 1 ∧
      (CreateNewTab prefs win filePath).1.filePath = some filePath) ∧
    (prefs.useTabs = true ∧ win.TabsCount = 0 →
      ∃ home, (CreateNewTab prefs win filePath).2.tabs_[0]? = some home ∧
        home.isPinned = true ∧ home.text = "Home" ∧ home.tooltip = none ∧
        (CreateNewTab prefs win filePath).2.Tabs[1]? =
          some (CreateNewTab prefs win filePath).1 ∧
        (CreateNewTab prefs win filePath).2.selected = 1 ∧
        (CreateNewTab prefs win filePath).2.TabsCount = 2 ∧
        (CreateNewTab prefs win filePath).1.filePath = some filePath) := by
  constructor
  · intro hn
    have hb : (prefs.useTabs && decide (win.TabsCount = 0)) = false := by
      cases hu : prefs.useTabs with
      | false => rfl
      | true =>
          simp only [Bool.true_and, decide_eq_false_iff_not]
          intro h0
          exact hn ⟨hu, h0⟩
    have e1 : (CreateNewTab prefs win filePath).1 =
        { tabId := win.nextTabId, filePath := some filePath, ctrl := none } := by
      unfold CreateNewTab
      rw [hb]
      rfl
    have htl : (insertTabCtrl { win with nextTabId := win.nextTabId + 1 } win.tabs_.length
        { text := WindowTab.GetTabTitle
            { tabId := win.nextTabId, filePath := some filePath, ctrl := none }
          , tooltip := some filePath, isPinned := false
          , userData := { tabId := win.nextTabId, filePath := some filePath, ctrl := none } }).tabs_
        = win.tabs_ ++
          [{ text := WindowTab.GetTabTitle
               { tabId := win.nextTabId, filePath := some filePath, ctrl := none }
            , tooltip := some filePath, isPinned := false
            , userData := { tabId := win.nextTabId, filePath := some filePath, ctrl := none } }] :=
      insertTabCtrl_append _ _ _ rfl
    have e2 : (CreateNewTab prefs win filePath).2 =
        UpdateTabWidth prefs
          { insertTabCtrl { win with nextTabId := win.nextTabId + 1 } win.TabsCount
              { text := WindowTab.GetTabTitle
                  { tabId := win.nextTabId, filePath := some filePath, ctrl := none }
                , tooltip := some filePath, isPinned := false
                , userData := { tabId := win.nextTabId, filePath := some filePath, ctrl := none } }
            with selected := ((win.TabsCount : Nat) : Int) } := by
      unfold CreateNewTab
      rw [hb]
      rfl
    refine ⟨?_, ?_, ?_, ?_⟩
    · rw [e1, e2]
      simp only [MainWindow.Tabs, MainWindow.TabsCount, updateTabWidth_tabs]
      simp only [htl]
      rw [List.map_append]
      rw [show win.tabs_.length = (win.tabs_.map (fun e => e.userData)).length by simp]
      simp [List.getElem?_concat_length]
    · rw [e2]
      simp
    · rw [e2]
      simp [MainWindow.TabsCount, htl]
    · rw [e1]
  · rintro ⟨hu, h0⟩
    have htabs : win.tabs_ = [] := List.length_eq_zero.mp h0
    have hb : (prefs.useTabs && decide (win.TabsCount = 0)) = true := by
      rw [hu, h0]
      rfl
    refine ⟨{ text := "Home", tooltip := none, isPinned := true
            , userData := { tabId := win.nextTabId, filePath := none, ctrl := none } },
      ?_, rfl, rfl, rfl, ?_, ?_, ?_, ?_⟩ <;>
      unfold CreateNewTab <;> rw [hb] <;>
      simp [insertTabCtrl, setSelected, htabs, MainWindow.Tabs, MainWindow.TabsCount, h0]

theorem createNewTab_spec_witness :
    (CreateNewTab prefs0 win2 fpX).2.Tabs[win2.TabsCount]? =
      some (CreateNewTab prefs0 win2 fpX).1 ∧
    (CreateNewTab prefs0 win2 fpX).2.selected = (win2.TabsCount : Int) ∧
    (CreateNewTab prefs0 win2 fpX).2.TabsCount = win2.TabsCount + 1 ∧
    (CreateNewTab prefs0 win2 fpX).1.filePath = some fpX :=
  (createNewTab_spec prefs0 win2 fpX).1 (by decide)

theorem tabsOnCloseDoc_selects_from_history_witness :
    (win2.TabsCount = 0 → TabsOnCloseDoc prefs0 win2 = win2) ∧
    (win2.tabs_ ≠ [] →
      ∃ ti, win2.tabs_[win2.selected.toNat]? = some ti ∧
        (TabsOnCloseDoc prefs0 win2).tabs_ = win2.tabs_.eraseIdx win2.selected.toNat ∧
        (1 < win2.TabsCount →
          (∀ t, (removeFirstTab win2.tabSelectionHistory ti.userData.tabId).getLast? = some t →
              0 ≤ (TabsOnCloseDoc prefs0 win2).selected ∧
              (TabsOnCloseDoc prefs0 win2).Tabs[(TabsOnCloseDoc prefs0 win2).selected.toNat]? =
                some t ∧
              (TabsOnCloseDoc prefs0 win2).loadedModel = some t.tabId ∧
              (TabsOnCloseDoc prefs0 win2).tabSelectionHistory =
                (removeFirstTab win2.tabSelectionHistory ti.userData.tabId).dropLast) ∧
          (removeFirstTab win2.tabSelectionHistory ti.userData.tabId = [] →
            ∃ t0, (TabsOnCloseDoc prefs0 win2).Tabs[0]? = some t0 ∧
              (TabsOnCloseDoc prefs0 win2).selected = 0 ∧
              (TabsOnCloseDoc prefs0 win2).loadedModel = some t0.tabId))) :=
  tabsOnCloseDoc_selects_from_history prefs0 win2 (by decide)

end Tabs
